import Mathlib

/-!
Verification development for the Mirror client feed engine.

The definitions below are a shallow embedding of the feed/mutation code of
the repository (normalizer, ranker, pager, mutation coordinator, delivery
tracker).  JavaScript numbers are modelled as `Int` (all the code paths the
claims touch only ever hold integral values; the fractional steeze score is
kept in tenths), scores are modelled in `ℚ` (the score arithmetic uses the
constants 2.2 and 4 on millisecond differences), JavaScript objects used as
string-keyed maps are modelled as association lists in insertion order
(JavaScript objects and `Map`s preserve insertion order; updating an
existing key keeps its position, inserting a new key appends), and absent
fields are modelled with `Option`.
-/

set_option maxRecDepth 4000

/-- The closed set of reaction kinds (`reactionTypes` / `reactionKeys`). -/
inductive ReactionKey where
  | annoyed
  | love
  | surprised
  | thumbs_up
  | laugh
deriving DecidableEq, Repr

/-- Source list `reactionKeys = reactionTypes.map(item => item.key)`. -/
def reactionKeys : List ReactionKey :=
  [.annoyed, .love, .surprised, .thumbs_up, .laugh]

/-- A normalized reaction-count map: one integer per known reaction kind
(`normalizeReactionCounts` always produces exactly these keys). -/
structure ReactionCounts where
  annoyed : Int
  love : Int
  surprised : Int
  thumbs_up : Int
  laugh : Int
deriving DecidableEq, Repr

/-- Read one slot of a reaction-count map. -/
def getCount (c : ReactionCounts) : ReactionKey → Int
  | .annoyed => c.annoyed
  | .love => c.love
  | .surprised => c.surprised
  | .thumbs_up => c.thumbs_up
  | .laugh => c.laugh

/-- Write one slot of a reaction-count map. -/
def setCount (c : ReactionCounts) : ReactionKey → Int → ReactionCounts
  | .annoyed, v => { c with annoyed := v }
  | .love, v => { c with love := v }
  | .surprised, v => { c with surprised := v }
  | .thumbs_up, v => { c with thumbs_up := v }
  | .laugh, v => { c with laugh := v }

/-- Source `createEmptyReactionCounts`: every known kind at zero. -/
def createEmptyReactionCounts : ReactionCounts :=
  { annoyed := 0, love := 0, surprised := 0, thumbs_up := 0, laugh := 0 }

/-- Source `normalizeReactionCounts(value)`: a missing map falls back to all
zeros; a present map keeps the numeric value of each known key (unknown keys
are dropped, which in this typed embedding is enforced by the type). -/
def normalizeReactionCounts (value : Option ReactionCounts) : ReactionCounts :=
  value.getD createEmptyReactionCounts

/-- The reacted-by map `user id → reaction kind`, in JavaScript-object
insertion order. -/
abbrev ReactedBy := List (String × ReactionKey)

/-- Source `normalizeReactedBy(value)`: a missing map becomes empty; entries
with an empty user id are dropped (entries with an unknown reaction kind are
dropped by typing). -/
def normalizeReactedBy (value : Option ReactedBy) : ReactedBy :=
  (value.getD []).filter (fun e => e.1 ≠ "")

/-- Normalization of an already-present reacted-by object (used inside
`reactToPost`, where `target.reacted_by` is always present). -/
def normalizeReactedByT (rb : ReactedBy) : ReactedBy :=
  rb.filter (fun e => e.1 ≠ "")

/-- Lookup `rb[u]` in a reacted-by object. -/
def lookupR (rb : ReactedBy) (u : String) : Option ReactionKey :=
  (rb.find? (fun e => e.1 = u)).map (fun e => e.2)

/-- JavaScript `delete rb[u]`. -/
def eraseR (rb : ReactedBy) (u : String) : ReactedBy :=
  rb.filter (fun e => e.1 ≠ u)

/-- JavaScript `rb[u] = k`: updating an existing key keeps its position, a
new key is appended. -/
def setR : ReactedBy → String → ReactionKey → ReactedBy
  | [], u, k => [(u, k)]
  | e :: t, u, k => if e.1 = u then (u, k) :: t else e :: setR t u k

/-- Source `computeReactionTotal`: sum of the normalized per-kind counts
(normalization of an already-normalized map is the identity in this typed
embedding). -/
def computeReactionTotal (c : ReactionCounts) : Int :=
  reactionKeys.foldl (fun s k => s + getCount c k) 0

/-- Source `computeSteezeScore({engagementCount})`, kept in tenths:
`min(99, (max(0, e) * 0.1).toFixed(1))` becomes `min 990 (max 0 e)`. -/
def computeSteezeScore (engagementCount : Int) : Int :=
  min 990 (max 0 engagementCount)

/-- A raw `created_at` value as seen by `toMillis`: absent/falsy, a
Firestore timestamp (carrying a `toMillis()` result), a plain number of
milliseconds, an object with a numeric `seconds` field, or anything else. -/
inductive TimeValue where
  | missing
  | stamp (ms : Int)
  | num (ms : Int)
  | secs (s : Int)
  | other
deriving DecidableEq, Repr

/-- Source `toMillis(value)`. A numeric `0` is falsy and hits the first
branch, which returns the same `0` the number branch would. -/
def toMillis : TimeValue → Int
  | .missing => 0
  | .stamp ms => ms
  | .num ms => ms
  | .secs s => s * 1000
  | .other => 0

/-- One comment, as built by `addReflectionComment`. -/
structure Comment where
  id : String
  user_id : String
  text : String
  author_name : String
  author_handle : String
  author_avatar_url : String
  created_at : Int
deriving DecidableEq, Repr

/-- The canonical Post shape produced by `normalizePost` (the fields the
claims are about; presentation-only fields such as `views_count` and the
author display columns that no claim mentions are omitted). -/
structure Post where
  id : String
  user_id : String
  created_at : TimeValue
  caption : String
  tags : List String
  engagement_count : Int
  reactions_count : ReactionCounts
  reacted_by : ReactedBy
  comments : List Comment
  comments_count : Int
  steeze_score10 : Int
  media_type : String
  thumbnail_url : String
  moderated_status : String
  flags_count : Int
  delivery_status : Option String
deriving DecidableEq, Repr

/-- A raw stored record as consumed by `normalizePost` (`docSnap.data()`
plus the document id).  `Option` marks fields the record may lack; numeric
fields that the source reads through `|| 0` are plain `Int` with `0` in the
absent case, which the `||` collapses to the same result. -/
structure RawPost where
  id : String
  user_id : String
  created_at : TimeValue
  caption : String
  reactions_count : Option ReactionCounts
  reacted_by : Option ReactedBy
  likes_count : Int
  liked_by : Option (List String)
  engagement_count : Int
  comments_count : Int
  comments : Option (List Comment)
  steeze_score10 : Int
  media_type : String
  thumbnail_url : String
  tags : Option (List String)
  moderated_status : String
  flags_count : Int
deriving DecidableEq, Repr

/-- Source `normalizePost(docSnap)` (feed subscription normalizer):
normalizes the reaction maps, folds the legacy `likes_count`/`liked_by`
representation into `thumbs_up` only when the canonical fields are absent,
recomputes the engagement total when it is absent or zero, and fills
defaults for the remaining fields. -/
def normalizePost (data : RawPost) : Post :=
  let reactionsCount := normalizeReactionCounts data.reactions_count
  let reactedBy := normalizeReactedBy data.reacted_by
  let fallbackLikes := data.likes_count
  let fallbackLikedBy := data.liked_by.getD []
  let fallbackReactionCount := max fallbackLikes (fallbackLikedBy.length : Int)
  let reactionsCount :=
    if data.reactions_count.isNone ∧ 0 < fallbackReactionCount then
      setCount reactionsCount .thumbs_up fallbackReactionCount
    else reactionsCount
  let reactedBy :=
    if data.reacted_by.isNone ∧ fallbackLikedBy ≠ [] then
      fallbackLikedBy.foldl
        (fun rb userId =>
          if userId ≠ "" ∧ lookupR rb userId = none then rb ++ [(userId, .thumbs_up)] else rb)
        reactedBy
    else reactedBy
  let engagementCount :=
    if data.engagement_count ≠ 0 then data.engagement_count
    else computeReactionTotal reactionsCount
  { id := data.id
    user_id := data.user_id
    created_at := data.created_at
    caption := data.caption
    tags := data.tags.getD []
    engagement_count := engagementCount
    reactions_count := reactionsCount
    reacted_by := reactedBy
    comments := data.comments.getD []
    comments_count := data.comments_count
    steeze_score10 := data.steeze_score10
    media_type := if data.media_type = "" then "image" else data.media_type
    thumbnail_url := data.thumbnail_url
    moderated_status := if data.moderated_status = "" then "active" else data.moderated_status
    flags_count := data.flags_count
    delivery_status := none }

/-! ### Mutation coordinator: reaction toggles (`reactToPost`) -/

/-- The four fields `reactToPost` recomputes for its optimistic patch
(lines computing `nextReactedBy`, `nextReactionsCount`, `nextEngagement`
and `nextSteeze` from the pre-mutation target). -/
structure ToggleDelta where
  rb : ReactedBy
  rc : ReactionCounts
  eng : Int
  steeze : Int
deriving DecidableEq, Repr

/-- Optimistic reaction-toggle delta of `reactToPost`, computed from the
normalized pre-mutation state of the target post (in this typed embedding
`normalizeReactionCounts` of a present counts object is the identity). -/
def toggleDelta (uid : String) (key : ReactionKey) (target : Post) : ToggleDelta :=
  let currentReactedBy := normalizeReactedByT target.reacted_by
  let currentReactionsCount := target.reactions_count
  let currentReaction := lookupR currentReactedBy uid
  let isRemoving : Bool := currentReaction = some key
  let nextReaction : Option ReactionKey := if isRemoving then none else some key
  let nextReactedBy :=
    if isRemoving then eraseR currentReactedBy uid else setR currentReactedBy uid key
  let nextReactionsCount :=
    match currentReaction with
    | some c =>
        if 0 < getCount currentReactionsCount c then
          setCount currentReactionsCount c (getCount currentReactionsCount c - 1)
        else currentReactionsCount
    | none => currentReactionsCount
  let nextReactionsCount :=
    match nextReaction with
    | some k => setCount nextReactionsCount k (getCount nextReactionsCount k + 1)
    | none => nextReactionsCount
  let nextEngagement := computeReactionTotal nextReactionsCount
  { rb := nextReactedBy
    rc := nextReactionsCount
    eng := nextEngagement
    steeze := computeSteezeScore nextEngagement }

/-- Apply a toggle delta to the post it was computed from: the optimistic
`setPosts` patch of `reactToPost` for the target entry. -/
def applyToggle (uid : String) (key : ReactionKey) (p : Post) : Post :=
  let d := toggleDelta uid key p
  { p with reacted_by := d.rb, reactions_count := d.rc,
           engagement_count := d.eng, steeze_score10 := d.steeze }

/-- The remote step of `reactToPost` (the `runTransaction` body), applied to
the authoritative stored post: it recomputes the same delta against the
stored value and writes the four fields back. -/
def applyRemote (uid : String) (key : ReactionKey) (p : Post) : Post :=
  let dbReactedBy := normalizeReactedByT p.reacted_by
  let dbReactionsCount := p.reactions_count
  let dbCurrentReaction := lookupR dbReactedBy uid
  let dbRemoving : Bool := dbCurrentReaction = some key
  let dbNextReaction : Option ReactionKey := if dbRemoving then none else some key
  let rc1 :=
    match dbCurrentReaction with
    | some c =>
        if 0 < getCount dbReactionsCount c then
          setCount dbReactionsCount c (getCount dbReactionsCount c - 1)
        else dbReactionsCount
    | none => dbReactionsCount
  match dbNextReaction with
  | some k =>
      let rc2 := setCount rc1 k (getCount rc1 k + 1)
      let rb2 := setR dbReactedBy uid k
      { p with reactions_count := rc2, reacted_by := rb2,
               engagement_count := computeReactionTotal rc2,
               steeze_score10 := computeSteezeScore (computeReactionTotal rc2) }
  | none =>
      let rb2 := eraseR dbReactedBy uid
      { p with reactions_count := rc1, reacted_by := rb2,
               engagement_count := computeReactionTotal rc1,
               steeze_score10 := computeSteezeScore (computeReactionTotal rc1) }

/-- One reaction-toggle step of the mutation coordinator: the optimistic
local patch or the remote transactional patch, each keyed by the acting
user and the toggled kind. -/
inductive ToggleStep where
  | opt (uid : String) (key : ReactionKey)
  | remote (uid : String) (key : ReactionKey)
deriving DecidableEq, Repr

/-- Apply one toggle step to a post state. -/
def applyStep (p : Post) : ToggleStep → Post
  | .opt uid key => applyToggle uid key p
  | .remote uid key => applyRemote uid key p

/-- Apply a sequence of toggle steps in order. -/
def applySteps (steps : List ToggleStep) (p : Post) : Post :=
  steps.foldl applyStep p

/-- The acting user id of a toggle step. -/
def ToggleStep.uid : ToggleStep → String
  | .opt u _ => u
  | .remote u _ => u

/-- Number of reacted-by entries carrying a given kind. -/
def countK (k : ReactionKey) (rb : ReactedBy) : Nat :=
  rb.countP (fun e => e.2 = k)

/-- The reaction accounting invariant of the spec, per kind: the user keys
are distinct (no user holds two reactions), no entry has an empty user id
(normalized form), and each kind's count equals the number of users mapped
to that kind. -/
def reactionAccounting (rb : ReactedBy) (rc : ReactionCounts) : Prop :=
  (rb.map Prod.fst).Nodup ∧ (∀ e ∈ rb, e.1 ≠ "") ∧
    ∀ k, getCount rc k = (countK k rb : Int)

/-- Accounting invariant of a post state. -/
def postAccounting (p : Post) : Prop :=
  reactionAccounting p.reacted_by p.reactions_count

/-! ### Basic lemmas about the reaction-count and reacted-by structures -/

instance instDecidableForallReactionKey (P : ReactionKey → Prop) [DecidablePred P] :
    Decidable (∀ k, P k) :=
  decidable_of_iff (P .annoyed ∧ P .love ∧ P .surprised ∧ P .thumbs_up ∧ P .laugh)
    (by
      constructor
      · rintro ⟨h1, h2, h3, h4, h5⟩ k
        cases k <;> assumption
      · intro h
        exact ⟨h _, h _, h _, h _, h _⟩)

theorem getCount_setCount_self (c : ReactionCounts) (k : ReactionKey) (v : Int) :
    getCount (setCount c k v) k = v := by
  cases k <;> rfl

theorem getCount_setCount_ne (c : ReactionCounts) {k j : ReactionKey} (v : Int)
    (h : k ≠ j) : getCount (setCount c k v) j = getCount c j := by
  cases k <;> cases j <;> first | rfl | exact absurd rfl h

theorem setCount_getCount (c : ReactionCounts) (k : ReactionKey) :
    setCount c k (getCount c k) = c := by
  cases k <;> rfl

theorem setCount_setCount (c : ReactionCounts) (k : ReactionKey) (a b : Int) :
    setCount (setCount c k a) k b = setCount c k b := by
  cases k <;> rfl

theorem reactionCounts_ext {a b : ReactionCounts}
    (h : ∀ k, getCount a k = getCount b k) : a = b := by
  cases a
  cases b
  have h1 := h .annoyed
  have h2 := h .love
  have h3 := h .surprised
  have h4 := h .thumbs_up
  have h5 := h .laugh
  simp [getCount] at h1 h2 h3 h4 h5
  simp [h1, h2, h3, h4, h5]

theorem computeReactionTotal_eq (c : ReactionCounts) :
    computeReactionTotal c =
      getCount c .annoyed + getCount c .love + getCount c .surprised +
        getCount c .thumbs_up + getCount c .laugh := by
  simp [computeReactionTotal, reactionKeys]

theorem computeReactionTotal_setCount (c : ReactionCounts) (k : ReactionKey) (v : Int) :
    computeReactionTotal (setCount c k v) =
      computeReactionTotal c - getCount c k + v := by
  cases k <;> simp [computeReactionTotal_eq, getCount, setCount] <;> ring

theorem length_eq_sum_countK (rb : ReactedBy) :
    rb.length = countK .annoyed rb + countK .love rb + countK .surprised rb +
      countK .thumbs_up rb + countK .laugh rb := by
  induction rb with
  | nil => rfl
  | cons e t ih =>
    rcases e with ⟨u, k⟩
    cases k <;> simp [countK, List.countP_cons] at ih ⊢ <;> omega

theorem countK_append (k : ReactionKey) (rb : ReactedBy) (u : String) (k2 : ReactionKey) :
    countK k (rb ++ [(u, k2)]) = countK k rb + (if k2 = k then 1 else 0) := by
  simp [countK, List.countP_append, List.countP_cons]

theorem lookupR_eq_none_iff (rb : ReactedBy) (u : String) :
    lookupR rb u = none ↔ ∀ e ∈ rb, e.1 ≠ u := by
  simp [lookupR, List.find?_eq_none]

theorem lookupR_mem {rb : ReactedBy} {u : String} {k : ReactionKey}
    (h : lookupR rb u = some k) : (u, k) ∈ rb := by
  simp only [lookupR, Option.map_eq_some'] at h
  obtain ⟨e, he, hk⟩ := h
  have hmem := List.mem_of_find?_eq_some he
  have hp := List.find?_some he
  simp at hp
  rcases e with ⟨a, b⟩
  simp at hp hk
  subst hp
  subst hk
  exact hmem

theorem countK_pos_of_lookup {rb : ReactedBy} {u : String} {k : ReactionKey}
    (h : lookupR rb u = some k) : 0 < countK k rb := by
  have hmem := lookupR_mem h
  simp only [countK]
  rw [List.countP_pos_iff]
  exact ⟨(u, k), hmem, by simp⟩

theorem setR_of_absent {rb : ReactedBy} {u : String} (k : ReactionKey)
    (h : ∀ e ∈ rb, e.1 ≠ u) : setR rb u k = rb ++ [(u, k)] := by
  induction rb with
  | nil => rfl
  | cons e t ih =>
    have he : e.1 ≠ u := h e (by simp)
    simp [setR, he, ih (fun x hx => h x (by simp [hx]))]

theorem keys_setR_of_lookup {rb : ReactedBy} {u : String} {c : ReactionKey}
    (h : lookupR rb u = some c) (k : ReactionKey) :
    (setR rb u k).map Prod.fst = rb.map Prod.fst := by
  induction rb with
  | nil => simp [lookupR] at h
  | cons e t ih =>
    by_cases he : e.1 = u
    · simp [setR, he]
    · have ht : lookupR t u = some c := by
        simpa [lookupR, List.find?_cons, he] using h
      simp [setR, he, ih ht]

theorem mem_setR {rb : ReactedBy} {u : String} {k : ReactionKey}
    {e : String × ReactionKey} (h : e ∈ setR rb u k) : e ∈ rb ∨ e = (u, k) := by
  induction rb with
  | nil => simp [setR] at h; simp [h]
  | cons x t ih =>
    by_cases hx : x.1 = u
    · simp [setR, hx] at h
      rcases h with h | h
      · right; simp [h]
      · left; simp [h]
    · simp [setR, hx] at h
      rcases h with h | h
      · left; simp [h]
      · rcases ih h with h2 | h2
        · left; simp [h2]
        · right; exact h2

theorem countK_setR_of_lookup {rb : ReactedBy} {u : String} {c : ReactionKey}
    (h : lookupR rb u = some c) (key k : ReactionKey) :
    countK k (setR rb u key) + (if c = k then 1 else 0) =
      countK k rb + (if key = k then 1 else 0) := by
  induction rb with
  | nil => simp [lookupR] at h
  | cons e t ih =>
    by_cases he : e.1 = u
    · have hc : e.2 = c := by
        simpa [lookupR, List.find?_cons, he] using h
      simp [setR, he, countK, List.countP_cons, ← hc]
      omega
    · have ht : lookupR t u = some c := by
        simpa [lookupR, List.find?_cons, he] using h
      have := ih ht
      simp [setR, he, countK, List.countP_cons] at this ⊢
      omega

theorem eraseR_of_absent {rb : ReactedBy} {u : String}
    (h : ∀ e ∈ rb, e.1 ≠ u) : eraseR rb u = rb :=
  List.filter_eq_self.2 (by
    intro e he
    simpa using h e he)

theorem normalizeReactedByT_of_ne {rb : ReactedBy}
    (h : ∀ e ∈ rb, e.1 ≠ "") : normalizeReactedByT rb = rb :=
  List.filter_eq_self.2 (by
    intro e he
    simpa using h e he)

theorem keys_eraseR (rb : ReactedBy) (u : String) :
    (eraseR rb u).map Prod.fst = (rb.map Prod.fst).filter (fun x => x ≠ u) := by
  induction rb with
  | nil => rfl
  | cons e t ih =>
    by_cases he : e.1 = u <;> simp [eraseR, he, List.filter_cons] at ih ⊢ <;>
      simpa [eraseR] using ih

theorem countK_eraseR_of_lookup {rb : ReactedBy} {u : String} {c : ReactionKey}
    (hnd : (rb.map Prod.fst).Nodup) (h : lookupR rb u = some c) (k : ReactionKey) :
    countK k (eraseR rb u) + (if c = k then 1 else 0) = countK k rb := by
  induction rb with
  | nil => simp [lookupR] at h
  | cons e t ih =>
    simp only [List.map_cons, List.nodup_cons] at hnd
    by_cases he : e.1 = u
    · have hc : e.2 = c := by
        simpa [lookupR, List.find?_cons, he] using h
      have ht : eraseR t u = t := by
        refine eraseR_of_absent ?_
        intro x hx hxu
        apply hnd.1
        rw [he, ← hxu]
        exact List.mem_map_of_mem Prod.fst hx
      simp [eraseR, he, List.filter_cons, countK, List.countP_cons, ← hc]
      simpa [eraseR, countK, hc] using congrArg (fun l => List.countP (fun e => decide (e.2 = k)) l) ht
    · have ht : lookupR t u = some c := by
        simpa [lookupR, List.find?_cons, he] using h
      have := ih hnd.2 ht
      simp [eraseR, List.filter_cons, he, countK, List.countP_cons] at this ⊢
      omega

theorem lookupR_eraseR_self (rb : ReactedBy) (u : String) :
    lookupR (eraseR rb u) u = none := by
  rw [lookupR_eq_none_iff]
  intro e he
  simp [eraseR, List.mem_filter] at he
  exact he.2

theorem eraseR_cons_self {e : String × ReactionKey} {t : ReactedBy} {u : String}
    (he : e.1 = u) : eraseR (e :: t) u = eraseR t u := by
  simp [eraseR, List.filter_cons, he]

theorem eraseR_cons_ne {e : String × ReactionKey} {t : ReactedBy} {u : String}
    (he : e.1 ≠ u) : eraseR (e :: t) u = e :: eraseR t u := by
  simp [eraseR, List.filter_cons, he]

theorem find?_eraseR_ne (rb : ReactedBy) {u v : String} (hvu : v ≠ u) :
    (eraseR rb u).find? (fun e => e.1 = v) = rb.find? (fun e => e.1 = v) := by
  induction rb with
  | nil => rfl
  | cons e t ih =>
    by_cases heu : e.1 = u
    · have hev : ¬e.1 = v := by
        rw [heu]
        exact fun h => hvu h.symm
      rw [eraseR_cons_self heu, ih, List.find?_cons_of_neg _ (by simp [hev])]
    · rw [eraseR_cons_ne heu]
      by_cases hev : e.1 = v
      · rw [List.find?_cons_of_pos _ (by simp [hev]), List.find?_cons_of_pos _ (by simp [hev])]
      · rw [List.find?_cons_of_neg _ (by simp [hev]), List.find?_cons_of_neg _ (by simp [hev]), ih]

theorem lookupR_append_right {rb : ReactedBy} {u : String} (k : ReactionKey)
    (h : ∀ e ∈ rb, e.1 ≠ u) : lookupR (rb ++ [(u, k)]) u = some k := by
  induction rb with
  | nil => simp [lookupR]
  | cons e t ih =>
    have he : e.1 ≠ u := h e (by simp)
    simpa [lookupR, List.find?_cons, he] using ih (fun x hx => h x (by simp [hx]))

theorem lookupR_append_ne {rb : ReactedBy} {u v : String} (k : ReactionKey)
    (hvu : v ≠ u) : lookupR (rb ++ [(u, k)]) v = lookupR rb v := by
  induction rb with
  | nil => simp [lookupR, List.find?_cons, Ne.symm hvu]
  | cons e t ih =>
    by_cases hev : e.1 = v
    · simp [lookupR, List.find?_cons, hev]
    · simpa [lookupR, List.find?_cons, hev] using ih

theorem eraseR_append_self {rb : ReactedBy} {u : String} (k : ReactionKey)
    (h : ∀ e ∈ rb, e.1 ≠ u) : eraseR (rb ++ [(u, k)]) u = rb := by
  simp only [eraseR, List.filter_append]
  rw [List.filter_eq_self.2 (by intro e he; simpa using h e he)]
  simp

/-! ### Case characterizations of the toggle delta -/

theorem applyToggle_reacted_by (uid : String) (key : ReactionKey) (p : Post) :
    (applyToggle uid key p).reacted_by = (toggleDelta uid key p).rb := rfl

theorem applyToggle_reactions_count (uid : String) (key : ReactionKey) (p : Post) :
    (applyToggle uid key p).reactions_count = (toggleDelta uid key p).rc := rfl

theorem applyToggle_engagement (uid : String) (key : ReactionKey) (p : Post) :
    (applyToggle uid key p).engagement_count =
      computeReactionTotal (toggleDelta uid key p).rc := rfl

theorem toggleDelta_of_none {p : Post} {uid : String} (key : ReactionKey)
    (hnorm : normalizeReactedByT p.reacted_by = p.reacted_by)
    (hlk : lookupR p.reacted_by uid = none) :
    toggleDelta uid key p =
      { rb := setR p.reacted_by uid key
        rc := setCount p.reactions_count key (getCount p.reactions_count key + 1)
        eng := computeReactionTotal
          (setCount p.reactions_count key (getCount p.reactions_count key + 1))
        steeze := computeSteezeScore (computeReactionTotal
          (setCount p.reactions_count key (getCount p.reactions_count key + 1))) } := by
  simp [toggleDelta, hnorm, hlk]

theorem toggleDelta_of_same {p : Post} {uid : String} {key : ReactionKey}
    (hnorm : normalizeReactedByT p.reacted_by = p.reacted_by)
    (hlk : lookupR p.reacted_by uid = some key)
    (hpos : 0 < getCount p.reactions_count key) :
    toggleDelta uid key p =
      { rb := eraseR p.reacted_by uid
        rc := setCount p.reactions_count key (getCount p.reactions_count key - 1)
        eng := computeReactionTotal
          (setCount p.reactions_count key (getCount p.reactions_count key - 1))
        steeze := computeSteezeScore (computeReactionTotal
          (setCount p.reactions_count key (getCount p.reactions_count key - 1))) } := by
  simp [toggleDelta, hnorm, hlk, hpos]

theorem toggleDelta_of_other {p : Post} {uid : String} {key c : ReactionKey}
    (hnorm : normalizeReactedByT p.reacted_by = p.reacted_by)
    (hlk : lookupR p.reacted_by uid = some c) (hck : c ≠ key)
    (hpos : 0 < getCount p.reactions_count c) :
    toggleDelta uid key p =
      { rb := setR p.reacted_by uid key
        rc := setCount (setCount p.reactions_count c (getCount p.reactions_count c - 1)) key
          (getCount (setCount p.reactions_count c (getCount p.reactions_count c - 1)) key + 1)
        eng := computeReactionTotal
          (setCount (setCount p.reactions_count c (getCount p.reactions_count c - 1)) key
            (getCount (setCount p.reactions_count c (getCount p.reactions_count c - 1)) key + 1))
        steeze := computeSteezeScore (computeReactionTotal
          (setCount (setCount p.reactions_count c (getCount p.reactions_count c - 1)) key
            (getCount (setCount p.reactions_count c (getCount p.reactions_count c - 1)) key
              + 1))) } := by
  simp [toggleDelta, hnorm, hlk, hpos, hck]


theorem toggleDelta_rb_of_none {p : Post} {uid : String} (key : ReactionKey)
    (hnorm : normalizeReactedByT p.reacted_by = p.reacted_by)
    (hlk : lookupR p.reacted_by uid = none) :
    (toggleDelta uid key p).rb = setR p.reacted_by uid key := by
  rw [toggleDelta_of_none key hnorm hlk]

theorem toggleDelta_rc_of_none {p : Post} {uid : String} (key : ReactionKey)
    (hnorm : normalizeReactedByT p.reacted_by = p.reacted_by)
    (hlk : lookupR p.reacted_by uid = none) :
    (toggleDelta uid key p).rc =
      setCount p.reactions_count key (getCount p.reactions_count key + 1) := by
  rw [toggleDelta_of_none key hnorm hlk]

theorem toggleDelta_rb_of_same {p : Post} {uid : String} {key : ReactionKey}
    (hnorm : normalizeReactedByT p.reacted_by = p.reacted_by)
    (hlk : lookupR p.reacted_by uid = some key)
    (hpos : 0 < getCount p.reactions_count key) :
    (toggleDelta uid key p).rb = eraseR p.reacted_by uid := by
  rw [toggleDelta_of_same hnorm hlk hpos]

theorem toggleDelta_rc_of_same {p : Post} {uid : String} {key : ReactionKey}
    (hnorm : normalizeReactedByT p.reacted_by = p.reacted_by)
    (hlk : lookupR p.reacted_by uid = some key)
    (hpos : 0 < getCount p.reactions_count key) :
    (toggleDelta uid key p).rc =
      setCount p.reactions_count key (getCount p.reactions_count key - 1) := by
  rw [toggleDelta_of_same hnorm hlk hpos]

theorem toggleDelta_rb_of_other {p : Post} {uid : String} {key c : ReactionKey}
    (hnorm : normalizeReactedByT p.reacted_by = p.reacted_by)
    (hlk : lookupR p.reacted_by uid = some c) (hck : c ≠ key)
    (hpos : 0 < getCount p.reactions_count c) :
    (toggleDelta uid key p).rb = setR p.reacted_by uid key := by
  rw [toggleDelta_of_other hnorm hlk hck hpos]

theorem toggleDelta_rc_of_other {p : Post} {uid : String} {key c : ReactionKey}
    (hnorm : normalizeReactedByT p.reacted_by = p.reacted_by)
    (hlk : lookupR p.reacted_by uid = some c) (hck : c ≠ key)
    (hpos : 0 < getCount p.reactions_count c) :
    (toggleDelta uid key p).rc =
      setCount (setCount p.reactions_count c (getCount p.reactions_count c - 1)) key
        (getCount (setCount p.reactions_count c (getCount p.reactions_count c - 1)) key + 1) := by
  rw [toggleDelta_of_other hnorm hlk hck hpos]


/-! ### The reaction accounting invariant is preserved by toggle deltas -/

theorem getCount_pos_of_lookup {p : Post} {uid : String} {c : ReactionKey}
    (h : postAccounting p) (hlk : lookupR p.reacted_by uid = some c) :
    0 < getCount p.reactions_count c := by
  obtain ⟨-, -, hcnt⟩ := h
  have := countK_pos_of_lookup hlk
  rw [hcnt c]
  exact_mod_cast this

theorem toggle_preserves_accounting (uid : String) (key : ReactionKey) {p : Post}
    (hu : uid ≠ "") (h : postAccounting p) : postAccounting (applyToggle uid key p) := by
  obtain ⟨hnd, hne, hcnt⟩ := h
  have hnorm : normalizeReactedByT p.reacted_by = p.reacted_by := normalizeReactedByT_of_ne hne
  rcases hlk : lookupR p.reacted_by uid with _ | c
  · -- the user holds no reaction: the toggle adds one
    have habs : ∀ e ∈ p.reacted_by, e.1 ≠ uid := (lookupR_eq_none_iff _ _).1 hlk
    have hset : setR p.reacted_by uid key = p.reacted_by ++ [(uid, key)] :=
      setR_of_absent key habs
    refine ⟨?_, ?_, ?_⟩
    · rw [applyToggle_reacted_by, toggleDelta_rb_of_none key hnorm hlk, hset]
      simp only [List.map_append, List.map_cons, List.map_nil]
      rw [List.nodup_append]
      refine ⟨hnd, List.nodup_singleton _, ?_⟩
      intro x hx hx1
      simp at hx1
      obtain ⟨e, he, rfl⟩ := List.mem_map.1 hx
      exact habs e he hx1
    · rw [applyToggle_reacted_by, toggleDelta_rb_of_none key hnorm hlk, hset]
      intro e he
      rcases List.mem_append.1 he with h1 | h1
      · exact hne e h1
      · simp only [List.mem_singleton] at h1
        rw [h1]
        exact hu
    · intro k
      rw [applyToggle_reacted_by, applyToggle_reactions_count,
        toggleDelta_rb_of_none key hnorm hlk, toggleDelta_rc_of_none key hnorm hlk,
        hset, countK_append]
      by_cases hk : k = key
      · rw [hk, getCount_setCount_self, if_pos rfl]
        have h1 := hcnt key
        push_cast
        omega
      · rw [getCount_setCount_ne _ _ (Ne.symm hk), if_neg (Ne.symm hk)]
        simpa using hcnt k
  · by_cases hck : c = key
    · -- the user holds exactly the toggled kind: the toggle removes it
      subst hck
      have hpos : 0 < getCount p.reactions_count c :=
        getCount_pos_of_lookup ⟨hnd, hne, hcnt⟩ hlk
      refine ⟨?_, ?_, ?_⟩
      · rw [applyToggle_reacted_by, toggleDelta_rb_of_same hnorm hlk hpos, keys_eraseR]
        exact hnd.filter _
      · rw [applyToggle_reacted_by, toggleDelta_rb_of_same hnorm hlk hpos]
        intro e he
        simp only [eraseR, List.mem_filter] at he
        exact hne e he.1
      · intro k
        rw [applyToggle_reacted_by, applyToggle_reactions_count,
          toggleDelta_rb_of_same hnorm hlk hpos, toggleDelta_rc_of_same hnorm hlk hpos]
        have herase := countK_eraseR_of_lookup hnd hlk k
        by_cases hk : k = c
        · rw [hk] at herase ⊢
          rw [if_pos rfl] at herase
          rw [getCount_setCount_self]
          have h1 := hcnt c
          omega
        · rw [getCount_setCount_ne _ _ (Ne.symm hk)]
          rw [if_neg (Ne.symm hk)] at herase
          have h1 := hcnt k
          omega
    · -- the user holds a different kind: the toggle replaces it
      have hpos : 0 < getCount p.reactions_count c :=
        getCount_pos_of_lookup ⟨hnd, hne, hcnt⟩ hlk
      refine ⟨?_, ?_, ?_⟩
      · rw [applyToggle_reacted_by, toggleDelta_rb_of_other hnorm hlk hck hpos,
          keys_setR_of_lookup hlk]
        exact hnd
      · rw [applyToggle_reacted_by, toggleDelta_rb_of_other hnorm hlk hck hpos]
        intro e he
        rcases mem_setR he with h1 | h1
        · exact hne e h1
        · rw [h1]
          exact hu
      · intro k
        rw [applyToggle_reacted_by, applyToggle_reactions_count,
          toggleDelta_rb_of_other hnorm hlk hck hpos, toggleDelta_rc_of_other hnorm hlk hck hpos]
        have hsetk := countK_setR_of_lookup hlk key k
        by_cases hk : k = key
        · rw [hk] at hsetk ⊢
          rw [if_neg hck, if_pos rfl] at hsetk
          rw [getCount_setCount_self, getCount_setCount_ne _ _ hck]
          have h1 := hcnt key
          omega
        · rw [getCount_setCount_ne _ _ (Ne.symm hk)]
          rw [if_neg (Ne.symm hk)] at hsetk
          by_cases hkc : k = c
          · rw [hkc] at hsetk ⊢
            rw [if_pos rfl] at hsetk
            rw [getCount_setCount_self]
            have h1 := hcnt c
            omega
          · rw [getCount_setCount_ne _ _ (Ne.symm hkc)]
            rw [if_neg (Ne.symm hkc)] at hsetk
            have h1 := hcnt k
            omega

theorem applyRemote_eq_applyToggle (uid : String) (key : ReactionKey) (p : Post) :
    applyRemote uid key p = applyToggle uid key p := by
  simp only [applyRemote, applyToggle, toggleDelta]
  by_cases h : lookupR (normalizeReactedByT p.reacted_by) uid = some key
  · simp [h]
  · simp [h]

theorem applyStep_preserves_accounting {p : Post} {s : ToggleStep}
    (hu : ToggleStep.uid s ≠ "") (h : postAccounting p) :
    postAccounting (applyStep p s) := by
  cases s with
  | opt u k => exact toggle_preserves_accounting u k hu h
  | remote u k =>
    rw [applyStep, applyRemote_eq_applyToggle]
    exact toggle_preserves_accounting u k hu h

theorem total_eq_length_of_accounting {rb : ReactedBy} {rc : ReactionCounts}
    (h : reactionAccounting rb rc) :
    computeReactionTotal rc = (rb.length : Int) := by
  obtain ⟨-, -, hcnt⟩ := h
  rw [computeReactionTotal_eq, hcnt .annoyed, hcnt .love, hcnt .surprised,
    hcnt .thumbs_up, hcnt .laugh]
  have := length_eq_sum_countK rb
  omega

instance instDecReactionAccounting (rb : ReactedBy) (rc : ReactionCounts) :
    Decidable (reactionAccounting rb rc) := by
  unfold reactionAccounting
  infer_instance

instance instDecPostAccounting (p : Post) : Decidable (postAccounting p) := by
  unfold postAccounting
  infer_instance

/-- C1 counterexample input: a stored record whose canonical reaction map
holds two love reactions but whose reacted-by map is absent, and which has
no legacy likes to fold in. -/
def c1RawPost : RawPost :=
  { id := "p1"
    user_id := "author1"
    created_at := .num 1000
    caption := "hello"
    reactions_count := some { createEmptyReactionCounts with love := 2 }
    reacted_by := none
    likes_count := 0
    liked_by := none
    engagement_count := 0
    comments_count := 0
    comments := none
    steeze_score10 := 0
    media_type := "image"
    thumbnail_url := ""
    tags := none
    moderated_status := "active"
    flags_count := 0 }

/-- C1 counterexample: `normalizePost` does not establish the accounting
equation.  On a stored record with `reactions_count = {love: 2}` and no
`reacted_by` map, the normalized post has reaction-count sum 2 but an empty
reacted-by map, so the claimed invariant fails already at normalization
time, before any toggle. -/
theorem c1_counterexample :
    computeReactionTotal (normalizePost c1RawPost).reactions_count = 2 ∧
      (normalizePost c1RawPost).reacted_by.length = 0 ∧
      ¬(computeReactionTotal (normalizePost c1RawPost).reactions_count =
          ((normalizePost c1RawPost).reacted_by.length : Int)) := by
  decide

/-- C1 (amended): no user is ever mapped to two reaction kinds at once (the
reacted-by map is keyed by user), and if a post satisfies the per-kind
reaction accounting invariant, then after any sequence of reaction-toggle
steps (optimistic `reactToPost` deltas and remote transaction deltas, by
any non-empty user ids) the invariant still holds, and in particular the
sum of the per-kind reaction counts equals the number of entries of the
reacted-by map.  `normalizePost` itself does not establish the invariant
for arbitrary raw records (see the counterexample). -/
theorem c1_toggle_steps_preserve_accounting (steps : List ToggleStep) (p : Post)
    (hu : ∀ s ∈ steps, ToggleStep.uid s ≠ "") (h : postAccounting p) :
    postAccounting (applySteps steps p) ∧
      computeReactionTotal (applySteps steps p).reactions_count =
        (((applySteps steps p).reacted_by.length : Int)) ∧
      ((applySteps steps p).reacted_by.map Prod.fst).Nodup := by
  have hacc : postAccounting (applySteps steps p) := by
    induction steps generalizing p with
    | nil => exact h
    | cons s t ih =>
      rw [applySteps, List.foldl_cons]
      exact ih _ (fun x hx => hu x (by simp [hx]))
        (applyStep_preserves_accounting (hu s (by simp)) h)
  exact ⟨hacc, total_eq_length_of_accounting hacc, hacc.1⟩

/-- C1 witness: a concrete run of the amended theorem on a post satisfying
the invariant and two toggle steps by different users. -/
theorem c1_witness :
    postAccounting (applySteps [.opt "u1" .love, .remote "u2" .love]
        (normalizePost { c1RawPost with reactions_count := none })) ∧
      computeReactionTotal (applySteps [.opt "u1" .love, .remote "u2" .love]
          (normalizePost { c1RawPost with reactions_count := none })).reactions_count =
        (((applySteps [.opt "u1" .love, .remote "u2" .love]
          (normalizePost { c1RawPost with reactions_count := none })).reacted_by.length : Int)) ∧
      ((applySteps [.opt "u1" .love, .remote "u2" .love]
          (normalizePost { c1RawPost with reactions_count := none })).reacted_by.map
        Prod.fst).Nodup :=
  c1_toggle_steps_preserve_accounting _ _ (by decide) (by decide)

/-! ### C2: the double-toggle property -/

theorem lookupR_eraseR_ne (rb : ReactedBy) {u v : String} (hvu : v ≠ u) :
    lookupR (eraseR rb u) v = lookupR rb v := by
  unfold lookupR
  rw [find?_eraseR_ne rb hvu]

/-- C2 counterexample input: user u1 already holds a love reaction and the
post satisfies the accounting invariant (its engagement field is stale,
which normalization permits when a nonzero stored value is present). -/
def c2Post : Post :=
  { id := "p2"
    user_id := "author2"
    created_at := .num 1000
    caption := ""
    tags := []
    engagement_count := 7
    reactions_count := { createEmptyReactionCounts with love := 1 }
    reacted_by := [("u1", .love)]
    comments := []
    comments_count := 0
    steeze_score10 := 0
    media_type := "image"
    thumbnail_url := ""
    moderated_status := "active"
    flags_count := 0
    delivery_status := none }

/-- C2 counterexample: toggling the same kind twice is not the identity for
every post satisfying the accounting invariant.  Post `c2Post` satisfies
the invariant, user u1 holds a love reaction, and toggling thumbs_up twice
leaves the reaction map, the per-kind counts and the engagement total all
different from their pre-toggle values (the first toggle replaces love with
thumbs_up, the second removes thumbs_up). -/
theorem c2_counterexample :
    postAccounting c2Post ∧
      (applyToggle "u1" .thumbs_up (applyToggle "u1" .thumbs_up c2Post)).reacted_by ≠
        c2Post.reacted_by ∧
      (applyToggle "u1" .thumbs_up (applyToggle "u1" .thumbs_up c2Post)).reactions_count ≠
        c2Post.reactions_count ∧
      (applyToggle "u1" .thumbs_up (applyToggle "u1" .thumbs_up c2Post)).engagement_count ≠
        c2Post.engagement_count := by
  decide

/-- C2 (amended): for a post satisfying the accounting invariant whose
engagement total equals the sum of its reaction counts, and a user whose
current reaction is either absent or exactly the toggled kind, applying the
optimistic toggle delta twice restores the reaction map (as a mapping; a
re-added entry may move to the end of the object), the per-kind counts, and
the engagement total. -/
theorem c2_double_toggle_restores (p : Post) (uid : String) (key : ReactionKey)
    (hu : uid ≠ "") (hacc : postAccounting p)
    (heng : p.engagement_count = computeReactionTotal p.reactions_count)
    (hcur : lookupR p.reacted_by uid = none ∨ lookupR p.reacted_by uid = some key) :
    (∀ v, lookupR (applyToggle uid key (applyToggle uid key p)).reacted_by v =
        lookupR p.reacted_by v) ∧
      (applyToggle uid key (applyToggle uid key p)).reactions_count = p.reactions_count ∧
      (applyToggle uid key (applyToggle uid key p)).engagement_count = p.engagement_count := by
  obtain ⟨hnd, hne, hcnt⟩ := hacc
  have hnorm : normalizeReactedByT p.reacted_by = p.reacted_by := normalizeReactedByT_of_ne hne
  rcases hcur with hlk | hlk
  · -- the user holds no reaction: toggle adds it, second toggle removes it
    have habs : ∀ e ∈ p.reacted_by, e.1 ≠ uid := (lookupR_eq_none_iff _ _).1 hlk
    have hrb1 : (applyToggle uid key p).reacted_by = p.reacted_by ++ [(uid, key)] := by
      rw [applyToggle_reacted_by, toggleDelta_rb_of_none key hnorm hlk, setR_of_absent key habs]
    have hrc1 : (applyToggle uid key p).reactions_count =
        setCount p.reactions_count key (getCount p.reactions_count key + 1) := by
      rw [applyToggle_reactions_count, toggleDelta_rc_of_none key hnorm hlk]
    have hne1 : ∀ e ∈ (applyToggle uid key p).reacted_by, e.1 ≠ "" := by
      rw [hrb1]
      intro e he
      rcases List.mem_append.1 he with h1 | h1
      · exact hne e h1
      · simp only [List.mem_singleton] at h1
        rw [h1]
        exact hu
    have hnorm1 : normalizeReactedByT (applyToggle uid key p).reacted_by =
        (applyToggle uid key p).reacted_by := normalizeReactedByT_of_ne hne1
    have hlk1 : lookupR (applyToggle uid key p).reacted_by uid = some key := by
      rw [hrb1]
      exact lookupR_append_right key habs
    have hpos1 : 0 < getCount (applyToggle uid key p).reactions_count key := by
      rw [hrc1, getCount_setCount_self]
      have h1 := hcnt key
      omega
    have hrb2 : (applyToggle uid key (applyToggle uid key p)).reacted_by = p.reacted_by := by
      rw [applyToggle_reacted_by, toggleDelta_rb_of_same hnorm1 hlk1 hpos1, hrb1,
        eraseR_append_self key habs]
    have hrc2 : (applyToggle uid key (applyToggle uid key p)).reactions_count =
        p.reactions_count := by
      rw [applyToggle_reactions_count, toggleDelta_rc_of_same hnorm1 hlk1 hpos1, hrc1,
        getCount_setCount_self, setCount_setCount, add_sub_cancel_right, setCount_getCount]
    refine ⟨fun v => by rw [hrb2], hrc2, ?_⟩
    rw [applyToggle_engagement, ← applyToggle_reactions_count, hrc2, heng]
  · -- the user holds exactly the toggled kind: toggle removes, second re-adds
    have hpos : 0 < getCount p.reactions_count key :=
      getCount_pos_of_lookup ⟨hnd, hne, hcnt⟩ hlk
    have hrb1 : (applyToggle uid key p).reacted_by = eraseR p.reacted_by uid := by
      rw [applyToggle_reacted_by, toggleDelta_rb_of_same hnorm hlk hpos]
    have hrc1 : (applyToggle uid key p).reactions_count =
        setCount p.reactions_count key (getCount p.reactions_count key - 1) := by
      rw [applyToggle_reactions_count, toggleDelta_rc_of_same hnorm hlk hpos]
    have hne1 : ∀ e ∈ (applyToggle uid key p).reacted_by, e.1 ≠ "" := by
      rw [hrb1]
      intro e he
      simp only [eraseR, List.mem_filter] at he
      exact hne e he.1
    have hnorm1 : normalizeReactedByT (applyToggle uid key p).reacted_by =
        (applyToggle uid key p).reacted_by := normalizeReactedByT_of_ne hne1
    have hlk1 : lookupR (applyToggle uid key p).reacted_by uid = none := by
      rw [hrb1]
      exact lookupR_eraseR_self p.reacted_by uid
    have habs1 : ∀ e ∈ (applyToggle uid key p).reacted_by, e.1 ≠ uid := by
      rw [hrb1]
      intro e he
      simp only [eraseR, List.mem_filter, decide_eq_true_eq] at he
      exact he.2
    have hrb2 : (applyToggle uid key (applyToggle uid key p)).reacted_by =
        eraseR p.reacted_by uid ++ [(uid, key)] := by
      rw [applyToggle_reacted_by, toggleDelta_rb_of_none key hnorm1 hlk1,
        setR_of_absent key habs1, hrb1]
    have hrc2 : (applyToggle uid key (applyToggle uid key p)).reactions_count =
        p.reactions_count := by
      rw [applyToggle_reactions_count, toggleDelta_rc_of_none key hnorm1 hlk1, hrc1,
        getCount_setCount_self, setCount_setCount, sub_add_cancel, setCount_getCount]
    have habs2 : ∀ e ∈ eraseR p.reacted_by uid, e.1 ≠ uid := by
      intro e he
      simp only [eraseR, List.mem_filter, decide_eq_true_eq] at he
      exact he.2
    refine ⟨?_, hrc2, ?_⟩
    · intro v
      rw [hrb2]
      by_cases hv : v = uid
      · rw [hv, lookupR_append_right key habs2, hlk]
      · rw [lookupR_append_ne key hv, lookupR_eraseR_ne p.reacted_by hv]
    · rw [applyToggle_engagement, ← applyToggle_reactions_count, hrc2, heng]

/-- C2 witness input: like `c2Post` but with the engagement total equal to
the sum of the reaction counts. -/
def c2WitnessPost : Post :=
  { c2Post with engagement_count := 1 }

/-- C2 witness: the amended double-toggle theorem applied to a concrete
post where user u1 already holds exactly the toggled kind. -/
theorem c2_witness :
    (∀ v, lookupR (applyToggle "u1" .love (applyToggle "u1" .love c2WitnessPost)).reacted_by v =
        lookupR c2WitnessPost.reacted_by v) ∧
      (applyToggle "u1" .love (applyToggle "u1" .love c2WitnessPost)).reactions_count =
        c2WitnessPost.reactions_count ∧
      (applyToggle "u1" .love (applyToggle "u1" .love c2WitnessPost)).engagement_count =
        c2WitnessPost.engagement_count :=
  c2_double_toggle_restores c2WitnessPost "u1" .love (by decide) (by decide) (by decide)
    (Or.inr (by decide))

/-! ### C3: rollback of a failed reaction mutation (`reactToPost` catch) -/

/-- Optimistic `setPosts` step of `reactToPost`: the delta is computed once
from the found target and patched into every entry with the target id. -/
def reactOptimistic (posts : List Post) (postId uid : String) (key : ReactionKey) :
    List Post :=
  match posts.find? (fun q => q.id = postId) with
  | none => posts
  | some target =>
    let d := toggleDelta uid key target
    posts.map (fun q =>
      if q.id = postId then
        { q with reacted_by := d.rb, reactions_count := d.rc,
                 engagement_count := d.eng, steeze_score10 := d.steeze }
      else q)

/-- The catch handler of `reactToPost`: restore the snapshot taken before
the optimistic patch.  The reacted-by map and counts are restored from the
normalized snapshot; the engagement total and steeze score are restored
through `target.engagement_count || recomputed` and
`target.steeze_score || recomputed`, so a zero pre-mutation value falls
back to the value recomputed from the snapshot counts. -/
def reactRollback (posts : List Post) (postId : String) (target : Post) : List Post :=
  posts.map (fun q =>
    if q.id = postId then
      { q with
        reacted_by := normalizeReactedByT target.reacted_by
        reactions_count := target.reactions_count
        engagement_count :=
          if target.engagement_count ≠ 0 then target.engagement_count
          else computeReactionTotal target.reactions_count
        steeze_score10 :=
          if target.steeze_score10 ≠ 0 then target.steeze_score10
          else computeSteezeScore (computeReactionTotal target.reactions_count) }
    else q)

/-- The full `reactToPost` path whose remote transaction fails: guards,
optimistic patch, then the catch-handler rollback. -/
def reactToPostFailed (posts : List Post) (postId uid : String) (key : ReactionKey) :
    List Post :=
  if uid = "" then posts
  else
    match posts.find? (fun q => q.id = postId) with
    | none => posts
    | some target => reactRollback (reactOptimistic posts postId uid key) postId target

/-- C3 counterexample input: a post with twenty love reactions, a matching
engagement total and a steeze score of zero (as `normalizePost` produces
when the stored record has no steeze score). -/
def c3Post : Post :=
  { id := "p3"
    user_id := "author3"
    created_at := .num 1000
    caption := ""
    tags := []
    engagement_count := 20
    reactions_count := { createEmptyReactionCounts with love := 20 }
    reacted_by := []
    comments := []
    comments_count := 0
    steeze_score10 := 0
    media_type := "image"
    thumbnail_url := ""
    moderated_status := "active"
    flags_count := 0
    delivery_status := none }

/-- C3 counterexample: a failed reaction mutation does not always restore
the post byte-for-byte.  `c3Post` has steeze score 0 before the mutation;
after the optimistic toggle and the rollback, the restored score is
`0 || computeSteezeScore(20)` = 2.0 (20 tenths), not 0, so the post differs
from its pre-mutation state. -/
theorem c3_counterexample :
    (reactToPostFailed [c3Post] "p3" "u9" ReactionKey.love).map
        (fun q => q.steeze_score10) = [20] ∧
      c3Post.steeze_score10 = 0 ∧
      reactToPostFailed [c3Post] "p3" "u9" ReactionKey.love ≠ [c3Post] := by
  decide

/-- C3 (amended): a failed reaction mutation restores the target post
exactly — every modelled field byte-for-byte — provided the pre-mutation
reacted-by map is in normalized form (no empty user key) and the
pre-mutation engagement total and steeze score are either nonzero or equal
to the values recomputed from the pre-mutation counts; the reaction map and
per-kind counts are restored unconditionally, while a zero engagement or
score may be replaced by the recomputed value (see the counterexample). -/
theorem c3_rollback_restores (posts : List Post) (postId uid : String)
    (key : ReactionKey) (target : Post)
    (hfind : posts.find? (fun q => q.id = postId) = some target)
    (huniq : ∀ q ∈ posts, q.id = postId → q = target)
    (hu : uid ≠ "")
    (hne : ∀ e ∈ target.reacted_by, e.1 ≠ "")
    (heng : target.engagement_count ≠ 0 ∨
      target.engagement_count = computeReactionTotal target.reactions_count)
    (hst : target.steeze_score10 ≠ 0 ∨
      target.steeze_score10 = computeSteezeScore (computeReactionTotal target.reactions_count)) :
    reactToPostFailed posts postId uid key = posts := by
  unfold reactToPostFailed reactOptimistic reactRollback
  rw [if_neg hu, hfind]
  simp only [hfind]
  rw [List.map_map]
  have hengv : (if target.engagement_count ≠ 0 then target.engagement_count
      else computeReactionTotal target.reactions_count) = target.engagement_count := by
    by_cases hc : target.engagement_count ≠ 0
    · rw [if_pos hc]
    · rw [if_neg hc]
      push_neg at hc
      rcases heng with h1 | h1
      · exact absurd hc h1
      · exact h1.symm
  have hstv : (if target.steeze_score10 ≠ 0 then target.steeze_score10
      else computeSteezeScore (computeReactionTotal target.reactions_count)) =
        target.steeze_score10 := by
    by_cases hc : target.steeze_score10 ≠ 0
    · rw [if_pos hc]
    · rw [if_neg hc]
      push_neg at hc
      rcases hst with h1 | h1
      · exact absurd hc h1
      · exact h1.symm
  have hnorm2 := normalizeReactedByT_of_ne hne
  conv_rhs => rw [← List.map_id posts]
  refine List.map_congr_left ?_
  intro q hq
  by_cases hqid : q.id = postId
  · have hq2 := huniq q hq hqid
    subst hq2
    simp [hqid, hnorm2, hengv, hstv]
    rw [← hqid]
  · simp [Function.comp_apply, hqid]

/-- C3 witness input: a post whose engagement total and steeze score are
both nonzero. -/
def c3WitnessPost : Post :=
  { c3Post with
    id := "p3w"
    reacted_by := [("u1", .love), ("u2", .love)]
    reactions_count := { createEmptyReactionCounts with love := 2 }
    engagement_count := 2
    steeze_score10 := 5 }

/-- C3 witness: the amended rollback theorem applied at a concrete post. -/
theorem c3_witness :
    reactToPostFailed [c3WitnessPost] "p3w" "u9" ReactionKey.love = [c3WitnessPost] :=
  c3_rollback_restores [c3WitnessPost] "p3w" "u9" ReactionKey.love c3WitnessPost
    (by decide) (by decide) (by decide) (by decide) (Or.inl (by decide)) (Or.inl (by decide))

/-! ### Ranker: `rankPosts` (merge, window filter, scoring, sort) -/

/-- Source constant `feedWindowMs = 24 * 60 * 60 * 1000`. -/
def feedWindowMs : Int := 24 * 60 * 60 * 1000

/-- Source constant `feedPageSize = 12`. -/
def feedPageSize : Nat := 12

/-- The four logical bucket sources of the feed. -/
inductive Src where
  | mine
  | following
  | campus
  | global
deriving DecidableEq, Repr

/-- A merged feed entry: a post plus its provenance flags
(`_fromMine` .. `_fromGlobal`). -/
structure Merged where
  post : Post
  fromMine : Bool
  fromFollowing : Bool
  fromCampus : Bool
  fromGlobal : Bool
deriving DecidableEq, Repr

/-- Set the provenance flag for one source (the four `if (source === ...)`
lines of `addToMerged`). -/
def setFlag (m : Merged) : Src → Merged
  | .mine => { m with fromMine := true }
  | .following => { m with fromFollowing := true }
  | .campus => { m with fromCampus := true }
  | .global => { m with fromGlobal := true }

/-- The merged record built by `addToMerged`: row fields overwrite any
previous fields, provenance flags carry over from the previous entry
(`previous?._fromX || false`), then the current source flag is set. -/
def mkMerged (previous : Option Merged) (row : Post) (src : Src) : Merged :=
  setFlag
    { post := row
      fromMine := (previous.map (fun m => m.fromMine)).getD false
      fromFollowing := (previous.map (fun m => m.fromFollowing)).getD false
      fromCampus := (previous.map (fun m => m.fromCampus)).getD false
      fromGlobal := (previous.map (fun m => m.fromGlobal)).getD false } src

/-- Source `addToMerged(row, source)` over the insertion-ordered merged map
(`merged.set` keeps the position of an existing key, appends a new one). -/
def addToMerged : List Merged → Post → Src → List Merged
  | [], row, src => [mkMerged none row src]
  | m :: t, row, src =>
    if m.post.id = row.id then mkMerged (some m) row src :: t
    else m :: addToMerged t row src

/-- The bucket store `bucketState`: one snapshot per source, the following
source sharded into chunks. -/
structure Buckets where
  mine : List Post
  campus : List Post
  following : List (List Post)
  global : List Post
deriving Repr

/-- The merge step of `rankPosts`: walk mine, campus, following shards,
then global, in source order. -/
def mergeBuckets (bs : Buckets) : List Merged :=
  let acc := bs.mine.foldl (fun acc row => addToMerged acc row .mine) []
  let acc := bs.campus.foldl (fun acc row => addToMerged acc row .campus) acc
  let acc := bs.following.foldl
    (fun acc rows => rows.foldl (fun acc row => addToMerged acc row .following) acc) acc
  bs.global.foldl (fun acc row => addToMerged acc row .global) acc

/-- The viewer context used by the ranker: the current user id and the
profile style tags. -/
structure FeedCtx where
  currentUserId : String
  styleTags : List String
deriving Repr

/-- JavaScript `post.reacted_by?.[currentUserId]` truthiness. -/
def hasViewerReaction (uid : String) (p : Post) : Bool :=
  (lookupR p.reacted_by uid).isSome

/-- The `interactionAuthorWeights` map of `rankPosts`, read at one author:
five points per merged post the viewer has reacted to by that author. -/
def interactionAuthorWeight (ms : List Merged) (uid author : String) : Int :=
  ms.foldl (fun n m =>
    n + (if hasViewerReaction uid m.post ∧ m.post.user_id = author then 5 else 0)) 0

/-- The `interactionTagWeights` map of `rankPosts`, read at one lowercase
tag: two points per occurrence of the tag on merged posts the viewer has
reacted to. -/
def interactionTagWeight (ms : List Merged) (uid : String) (tag : String) : Int :=
  ms.foldl (fun n m =>
    n + (if hasViewerReaction uid m.post then
      2 * ((m.post.tags.map String.toLower).count tag : Int) else 0)) 0

/-- A merged entry together with its computed `_feedScore`. -/
structure Scored where
  m : Merged
  feedScore : ℚ
deriving DecidableEq, Repr

/-- The per-post score computation of `rankPosts` (`2.2` is `11/5`). -/
def scoreOf (ctx : FeedCtx) (nowMs : Int) (ms : List Merged) (m : Merged) : ℚ :=
  let createdMs := toMillis m.post.created_at
  let ageHours : ℚ := max 0 (((nowMs - createdMs : Int) : ℚ) / 3600000)
  let recencyScore : ℚ := max 0 (24 - ageHours) * 4
  let engagementScore : ℚ := ((m.post.engagement_count : Int) : ℚ) * (11 / 5)
  let styleSet := ctx.styleTags.map String.toLower
  let styleScore : ℚ :=
    ((m.post.tags.foldl
      (fun n tag => n + (if styleSet.contains tag.toLower then 2 else 0)) 0 : Int) : ℚ)
  let interactionScore : ℚ :=
    ((m.post.tags.foldl
      (fun n tag => n + interactionTagWeight ms ctx.currentUserId tag.toLower) 0 : Int) : ℚ)
  let authorAffinity : ℚ :=
    ((interactionAuthorWeight ms ctx.currentUserId m.post.user_id : Int) : ℚ)
  let sourceBoost : ℚ :=
    (if m.fromMine then 120 else 0) + (if m.fromFollowing then 45 else 0) +
      (if m.fromCampus then 12 else 0) + (if m.fromGlobal then 6 else 0)
  sourceBoost + recencyScore + engagementScore + styleScore + interactionScore + authorAffinity

/-- Stable insertion step of the descending `_feedScore` sort: an element
walks past strictly greater scores and stops before the first score less
than or equal to its own.  This is the stable sort mandated for
`Array.prototype.sort` with comparator `(a, b) => b._feedScore - a._feedScore`. -/
def insertD (a : Scored) : List Scored → List Scored
  | [] => [a]
  | b :: t => if a.feedScore < b.feedScore then b :: insertD a t else a :: b :: t

/-- Stable insertion sort by descending `_feedScore`. -/
def isortD : List Scored → List Scored
  | [] => []
  | a :: t => insertD a (isortD t)

/-- `rankPosts` before the final sort: merge, window filter, scoring (the
interaction weights are computed from the full merged set, the filter is
applied only to the scored output list). -/
def scoredPre (ctx : FeedCtx) (nowMs : Int) (bs : Buckets) : List Scored :=
  let merged := mergeBuckets bs
  (merged.filter (fun m =>
      decide (0 < toMillis m.post.created_at) &&
        decide (nowMs - toMillis m.post.created_at ≤ feedWindowMs))).map
    (fun m => { m := m, feedScore := scoreOf ctx nowMs merged m })

/-- Source `rankPosts`: merge all buckets, drop posts outside the 24h
window or without a valid timestamp, score, and sort by descending score. -/
def rankPosts (ctx : FeedCtx) (nowMs : Int) (bs : Buckets) : List Scored :=
  isortD (scoredPre ctx nowMs bs)

/-! ### Sort lemmas -/

theorem mem_insertD {x a : Scored} {l : List Scored} :
    x ∈ insertD a l ↔ x = a ∨ x ∈ l := by
  induction l with
  | nil => simp [insertD]
  | cons b t ih =>
    by_cases h : a.feedScore < b.feedScore
    · simp [insertD, h, ih]
      tauto
    · simp [insertD, h]

theorem mem_isortD {x : Scored} {l : List Scored} : x ∈ isortD l ↔ x ∈ l := by
  induction l with
  | nil => simp [isortD]
  | cons a t ih =>
    rw [isortD, mem_insertD]
    simp [ih]

theorem pairwise_insertD (a : Scored) {l : List Scored}
    (h : l.Pairwise (fun x y => y.feedScore ≤ x.feedScore)) :
    (insertD a l).Pairwise (fun x y => y.feedScore ≤ x.feedScore) := by
  induction l with
  | nil => simp [insertD]
  | cons b t ih =>
    rw [List.pairwise_cons] at h
    by_cases hab : a.feedScore < b.feedScore
    · rw [insertD, if_pos hab, List.pairwise_cons]
      refine ⟨?_, ih h.2⟩
      intro x hx
      rcases mem_insertD.1 hx with rfl | hx
      · exact le_of_lt hab
      · exact h.1 x hx
    · rw [insertD, if_neg hab, List.pairwise_cons]
      refine ⟨?_, List.pairwise_cons.2 h⟩
      intro x hx
      rcases List.mem_cons.1 hx with rfl | hx
      · exact le_of_not_lt hab
      · exact le_trans (h.1 x hx) (le_of_not_lt hab)

theorem pairwise_isortD (l : List Scored) :
    (isortD l).Pairwise (fun x y => y.feedScore ≤ x.feedScore) := by
  induction l with
  | nil => simp [isortD]
  | cons a t ih => exact pairwise_insertD a ih

theorem filter_insertD_eq {a : Scored} {s : ℚ} (l : List Scored) (ha : a.feedScore = s) :
    (insertD a l).filter (fun x => x.feedScore = s) =
      a :: l.filter (fun x => x.feedScore = s) := by
  induction l with
  | nil => simp [insertD, List.filter, ha]
  | cons b t ih =>
    by_cases hab : a.feedScore < b.feedScore
    · have hbs : ¬(b.feedScore = s) := by
        intro hb
        rw [ha, ← hb] at hab
        exact lt_irrefl _ hab
      rw [insertD, if_pos hab, List.filter_cons_of_neg (by simp [hbs]), ih,
        List.filter_cons_of_neg (by simp [hbs])]
    · rw [insertD, if_neg hab, List.filter_cons_of_pos (by simp [ha])]

theorem filter_insertD_ne {a : Scored} {s : ℚ} (l : List Scored) (ha : a.feedScore ≠ s) :
    (insertD a l).filter (fun x => x.feedScore = s) =
      l.filter (fun x => x.feedScore = s) := by
  induction l with
  | nil => simp [insertD, List.filter, ha]
  | cons b t ih =>
    by_cases hab : a.feedScore < b.feedScore
    · by_cases hbs : b.feedScore = s
      · rw [insertD, if_pos hab, List.filter_cons_of_pos (by simp [hbs]), ih,
          List.filter_cons_of_pos (by simp [hbs])]
      · rw [insertD, if_pos hab, List.filter_cons_of_neg (by simp [hbs]), ih,
          List.filter_cons_of_neg (by simp [hbs])]
    · rw [insertD, if_neg hab, List.filter_cons_of_neg (by simp [ha])]

theorem filter_isortD (l : List Scored) (s : ℚ) :
    (isortD l).filter (fun x => x.feedScore = s) = l.filter (fun x => x.feedScore = s) := by
  induction l with
  | nil => rfl
  | cons a t ih =>
    by_cases ha : a.feedScore = s
    · rw [isortD, filter_insertD_eq _ ha, ih, List.filter_cons_of_pos (by simp [ha])]
    · rw [isortD, filter_insertD_ne _ ha, ih, List.filter_cons_of_neg (by simp [ha])]

/-- Score of a tagless post by a viewer with no interaction-affinity weight
for its author: only the source boost, the recency score and the
engagement score contribute. -/
theorem scoreOf_plain (ctx : FeedCtx) (nowMs : Int) (ms : List Merged) (m : Merged)
    (htags : m.post.tags = [])
    (hw : interactionAuthorWeight ms ctx.currentUserId m.post.user_id = 0) :
    scoreOf ctx nowMs ms m =
      ((if m.fromMine then 120 else 0) + (if m.fromFollowing then 45 else 0) +
          (if m.fromCampus then 12 else 0) + (if m.fromGlobal then 6 else 0)) +
        max 0 (24 - max 0 (((nowMs - toMillis m.post.created_at : Int) : ℚ) / 3600000)) * 4 +
        ((m.post.engagement_count : Int) : ℚ) * (11 / 5) := by
  simp [scoreOf, htags, hw]

/-! ### C5: window exclusion -/

/-- C5: a post whose creation timestamp is missing/invalid (`toMillis` is
zero) or more than the 24-hour feed window older than now never appears in
the ranked output of `rankPosts`, regardless of its score. -/
theorem c5_window_exclusion (ctx : FeedCtx) (nowMs : Int) (bs : Buckets) (e : Scored)
    (hbad : toMillis e.m.post.created_at = 0 ∨
      feedWindowMs < nowMs - toMillis e.m.post.created_at) :
    e ∉ rankPosts ctx nowMs bs := by
  intro hmem
  rw [rankPosts, mem_isortD] at hmem
  simp only [scoredPre, List.mem_map] at hmem
  obtain ⟨m, hm, he⟩ := hmem
  rw [List.mem_filter] at hm
  have h2 := hm.2
  simp only [Bool.and_eq_true, decide_eq_true_eq] at h2
  have hpost : e.m.post = m.post := by rw [← he]
  rw [hpost] at hbad
  rcases hbad with h | h
  · omega
  · exact absurd h2.2 (not_le.2 h)

/-- C5 witness input: a post created at millisecond 1000, far outside the
window at clock 200000000. -/
def c5OldPost : Post :=
  { id := "p5"
    user_id := "author5"
    created_at := .num 1000
    caption := ""
    tags := []
    engagement_count := 0
    reactions_count := createEmptyReactionCounts
    reacted_by := []
    comments := []
    comments_count := 0
    steeze_score10 := 0
    media_type := "image"
    thumbnail_url := ""
    moderated_status := "active"
    flags_count := 0
    delivery_status := none }

/-- C5 witness: the window-exclusion theorem applied to a concrete stale
post sitting in the global bucket. -/
theorem c5_witness :
    ({ m := { post := c5OldPost, fromMine := false, fromFollowing := false,
              fromCampus := false, fromGlobal := true }, feedScore := 0 } : Scored) ∉
      rankPosts { currentUserId := "v", styleTags := [] } 200000000
        { mine := [], campus := [], following := [], global := [c5OldPost] } :=
  c5_window_exclusion _ _ _ _ (Or.inr (by decide))

/-! ### C6: sort order of the ranked list -/

/-- C6 counterexample input: the newer of two equal-score posts. -/
def c6PostNew : Post :=
  { c5OldPost with id := "a-new", created_at := .num 352800000, engagement_count := 0 }

/-- C6 counterexample input: the older post, whose extra engagement makes
its score equal to the newer post's. -/
def c6PostOld : Post :=
  { c5OldPost with id := "b-old", created_at := .num 313200000, engagement_count := 20 }

/-- C6 counterexample helpers: the merged entries and context of the
two-post tie scenario. -/
def c6Ctx : FeedCtx :=
  { currentUserId := "viewer", styleTags := [] }

/-- C6 counterexample buckets: both posts arrive in the global bucket, the
older one first. -/
def c6Buckets : Buckets :=
  { mine := [], campus := [], following := [], global := [c6PostOld, c6PostNew] }

/-- Merged entry of the older post. -/
def c6Mold : Merged :=
  { post := c6PostOld, fromMine := false, fromFollowing := false, fromCampus := false,
    fromGlobal := true }

/-- Merged entry of the newer post. -/
def c6Mnew : Merged :=
  { post := c6PostNew, fromMine := false, fromFollowing := false, fromCampus := false,
    fromGlobal := true }

/-- C6 counterexample: the sort comparator is only
`b._feedScore - a._feedScore`; there is no tie-break.  At clock 360000000
(100h), `b-old` (87h, engagement 20) and `a-new` (98h, engagement 0) both
score 94, yet the ranked list keeps the older post first in bucket order —
not creation-time descending as the claim requires (and the identifier
order would also put `a-new` first). -/
theorem c6_counterexample :
    (rankPosts c6Ctx 360000000 c6Buckets).map (fun e => e.m.post.id) =
      ["b-old", "a-new"] ∧
      (rankPosts c6Ctx 360000000 c6Buckets).map (fun e => e.feedScore) = [94, 94] ∧
      toMillis c6PostOld.created_at < toMillis c6PostNew.created_at := by
  have hso : scoreOf c6Ctx 360000000 [c6Mold, c6Mnew] c6Mold = 94 := by
    rw [scoreOf_plain _ _ _ _ (by rfl) (by rfl)]
    norm_num [c6Mold, c6PostOld, c5OldPost, toMillis, max_def]
  have hsn : scoreOf c6Ctx 360000000 [c6Mold, c6Mnew] c6Mnew = 94 := by
    rw [scoreOf_plain _ _ _ _ (by rfl) (by rfl)]
    norm_num [c6Mnew, c6PostNew, c5OldPost, toMillis, max_def]
  have hpre0 : scoredPre c6Ctx 360000000 c6Buckets =
      [{ m := c6Mold, feedScore := scoreOf c6Ctx 360000000 [c6Mold, c6Mnew] c6Mold },
       { m := c6Mnew, feedScore := scoreOf c6Ctx 360000000 [c6Mold, c6Mnew] c6Mnew }] := rfl
  rw [rankPosts, hpre0, hso, hsn]
  have hsort : isortD [{ m := c6Mold, feedScore := 94 }, { m := c6Mnew, feedScore := 94 }] =
      [{ m := c6Mold, feedScore := 94 }, { m := c6Mnew, feedScore := 94 }] := by
    simp [isortD, insertD]
  rw [hsort]
  refine ⟨by decide, by decide, by decide⟩

/-- C6 (amended): the ranked list is sorted by descending score, and the
sort is stable: entries with equal score keep their merge (bucket
insertion) order — there is no creation-time or identifier tie-break. -/
theorem c6_sorted_descending_stable (ctx : FeedCtx) (nowMs : Int) (bs : Buckets) :
    (rankPosts ctx nowMs bs).Pairwise (fun a b => b.feedScore ≤ a.feedScore) ∧
      ∀ s : ℚ, (rankPosts ctx nowMs bs).filter (fun x => x.feedScore = s) =
        (scoredPre ctx nowMs bs).filter (fun x => x.feedScore = s) :=
  ⟨pairwise_isortD _, fun s => filter_isortD _ s⟩

/-! ### C4: source boosts are additive across provenance -/

/-- C4: for a post present in both the own-posts bucket and the campus
bucket (and nowhere else), with no tags, zero engagement, no viewer
interaction affinity, and an age of exactly 19 hours (recency component
`(24 - 19) * 4 = 20`), the ranked output holds exactly that post carrying
both provenance flags with score `120 + 12 + 20 = 152`: the source boost is
the sum of the boost constants of all provenance flags, not their maximum
(a max-picked boost would give `120 + 20 = 140`). -/
theorem c4_source_boosts_additive (ctx : FeedCtx) (nowMs : Int) (p : Post)
    (htags : p.tags = [])
    (heng : p.engagement_count = 0)
    (hreact : lookupR p.reacted_by ctx.currentUserId = none)
    (hage : nowMs - toMillis p.created_at = 68400000)
    (hpos : 0 < toMillis p.created_at) :
    rankPosts ctx nowMs { mine := [p], campus := [p], following := [], global := [] } =
      [{ m := { post := p, fromMine := true, fromFollowing := false, fromCampus := true,
                fromGlobal := false }, feedScore := 152 }] := by
  have hM : mergeBuckets { mine := [p], campus := [p], following := [], global := [] } =
      [{ post := p, fromMine := true, fromFollowing := false, fromCampus := true,
         fromGlobal := false }] := by
    simp [mergeBuckets, addToMerged, mkMerged, setFlag]
  have hw : interactionAuthorWeight
      [{ post := p, fromMine := true, fromFollowing := false, fromCampus := true,
         fromGlobal := false }] ctx.currentUserId p.user_id = 0 := by
    simp [interactionAuthorWeight, hasViewerReaction, hreact]
  have hscore : scoreOf ctx nowMs
      [{ post := p, fromMine := true, fromFollowing := false, fromCampus := true,
         fromGlobal := false }]
      { post := p, fromMine := true, fromFollowing := false, fromCampus := true,
        fromGlobal := false } = 152 := by
    rw [scoreOf_plain _ _ _ _ (by exact htags) (by exact hw)]
    norm_num [heng, hage, max_def]
  have hcond : (decide (0 < toMillis p.created_at) &&
      decide (nowMs - toMillis p.created_at ≤ feedWindowMs)) = true := by
    simp only [Bool.and_eq_true, decide_eq_true_eq]
    refine ⟨hpos, ?_⟩
    rw [hage]
    decide
  have hpre : scoredPre ctx nowMs { mine := [p], campus := [p], following := [], global := [] } =
      [{ m := { post := p, fromMine := true, fromFollowing := false, fromCampus := true,
                fromGlobal := false },
         feedScore := scoreOf ctx nowMs
           [{ post := p, fromMine := true, fromFollowing := false, fromCampus := true,
              fromGlobal := false }]
           { post := p, fromMine := true, fromFollowing := false, fromCampus := true,
             fromGlobal := false } }] := by
    simp only [scoredPre, hM]
    rw [List.filter_cons_of_pos (by exact hcond), List.filter_nil, List.map_cons,
      List.map_nil]
  rw [rankPosts, hpre, hscore]
  simp [isortD, insertD]

/-- C4 witness input: a tagless, engagement-free post created exactly 19
hours before the witness clock 360000000. -/
def c4Post : Post :=
  { id := "p4"
    user_id := "author4"
    created_at := .num 291600000
    caption := ""
    tags := []
    engagement_count := 0
    reactions_count := createEmptyReactionCounts
    reacted_by := []
    comments := []
    comments_count := 0
    steeze_score10 := 0
    media_type := "image"
    thumbnail_url := ""
    moderated_status := "active"
    flags_count := 0
    delivery_status := none }

/-- C4 witness: the additive-boost theorem applied at the concrete scenario
of the claim, producing the score 152. -/
theorem c4_witness :
    rankPosts { currentUserId := "viewer", styleTags := [] } 360000000
        { mine := [c4Post], campus := [c4Post], following := [], global := [] } =
      [{ m := { post := c4Post, fromMine := true, fromFollowing := false, fromCampus := true,
                fromGlobal := false }, feedScore := 152 }] :=
  c4_source_boosts_additive _ 360000000 c4Post rfl rfl rfl (by decide) (by decide)

/-! ### C7: comment append whose remote step fails -/

/-- JavaScript `String.prototype.trim`, modelled over the character list
(whitespace stripped from both ends). -/
def jsTrim (s : String) : String :=
  String.mk (((s.data.dropWhile Char.isWhitespace).reverse.dropWhile Char.isWhitespace).reverse)

/-- JavaScript `text.slice(0, n)`. -/
def jsSlice (s : String) (n : Nat) : String :=
  String.mk (s.data.take n)

/-- The optimistic comment `addReflectionComment` constructs:
`id` is `currentUserId-Date.now()`, the text is the trimmed draft capped at
220 characters, and the author fields come from the viewer profile. -/
def mkReflectionComment (uid text : String) (nowMs : Int)
    (authorName authorHandle avatarUrl : String) : Comment :=
  { id := uid ++ "-" ++ toString nowMs
    user_id := uid
    text := jsSlice text 220
    author_name := authorName
    author_handle := authorHandle
    author_avatar_url := avatarUrl
    created_at := nowMs }

/-- `addReflectionComment` on the path whose remote transaction fails:
guards (target found, not a text post, nonempty trimmed draft, signed-in
user, no pending comment), then the optimistic `setPosts` append; the catch
handler only surfaces a message and restores nothing. -/
def addReflectionCommentFailed (posts : List Post) (postId draft uid : String)
    (nowMs : Int) (authorName authorHandle avatarUrl : String) : List Post :=
  match posts.find? (fun q => q.id = postId) with
  | none => posts
  | some target =>
    if target.media_type = "text" then posts
    else
      let text := jsTrim draft
      if text = "" ∨ uid = "" then posts
      else
        let nextComment := mkReflectionComment uid text nowMs authorName authorHandle avatarUrl
        posts.map (fun q =>
          if q.id = postId then
            { q with comments := q.comments ++ [nextComment],
                     comments_count := q.comments_count + 1 }
          else q)

theorem find?_map_patch (posts : List Post) (postId : String) (f : Post → Post)
    (hf : ∀ q, (f q).id = q.id) :
    (posts.map (fun q => if q.id = postId then f q else q)).find?
        (fun q => q.id = postId) =
      (posts.find? (fun q => q.id = postId)).map f := by
  induction posts with
  | nil => rfl
  | cons a t ih =>
    by_cases ha : a.id = postId
    · rw [List.map_cons, if_pos ha, List.find?_cons_of_pos _ (by simp [hf, ha]),
        List.find?_cons_of_pos _ (by simp [ha])]
      rfl
    · rw [List.map_cons, if_neg ha, List.find?_cons_of_neg _ (by simp [ha]),
        List.find?_cons_of_neg _ (by simp [ha]), ih]

/-- C7: when the remote step of a comment append fails after the optimistic
apply, the locally visible target post keeps the appended comment: its
comments list is the old list plus the new entry and its comment count is
incremented — the failure handler does not restore the pre-mutation
comment state. -/
theorem c7_comment_survives_failure (posts : List Post) (postId draft uid : String)
    (nowMs : Int) (authorName authorHandle avatarUrl : String) (target : Post)
    (hfind : posts.find? (fun q => q.id = postId) = some target)
    (hmedia : ¬target.media_type = "text")
    (htext : ¬jsTrim draft = "") (huid : ¬uid = "") :
    (addReflectionCommentFailed posts postId draft uid nowMs authorName authorHandle
        avatarUrl).find? (fun q => q.id = postId) =
      some { target with
        comments := target.comments ++
          [mkReflectionComment uid (jsTrim draft) nowMs authorName authorHandle avatarUrl]
        comments_count := target.comments_count + 1 } := by
  simp only [addReflectionCommentFailed, hfind]
  rw [if_neg hmedia, if_neg (not_or.2 ⟨htext, huid⟩)]
  rw [find?_map_patch posts postId
    (fun q =>
      { q with
        comments := q.comments ++
          [mkReflectionComment uid (jsTrim draft) nowMs authorName authorHandle avatarUrl]
        comments_count := q.comments_count + 1 })
    (fun q => rfl), hfind]
  rfl

/-- C7 witness input: a video post with one existing comment. -/
def c7Post : Post :=
  { id := "p7"
    user_id := "author7"
    created_at := .num 1000
    caption := ""
    tags := []
    engagement_count := 0
    reactions_count := createEmptyReactionCounts
    reacted_by := []
    comments := []
    comments_count := 0
    steeze_score10 := 0
    media_type := "video"
    thumbnail_url := ""
    moderated_status := "active"
    flags_count := 0
    delivery_status := none }

/-- C7 witness: the theorem applied at a concrete failed comment append. -/
theorem c7_witness :
    (addReflectionCommentFailed [c7Post] "p7" " hi " "u1" 5000 "Name" "@handle"
        "").find? (fun q => q.id = "p7") =
      some { c7Post with
        comments := c7Post.comments ++
          [mkReflectionComment "u1" (jsTrim " hi ") 5000 "Name" "@handle" ""]
        comments_count := c7Post.comments_count + 1 } :=
  c7_comment_survives_failure [c7Post] "p7" " hi " "u1" 5000 "Name" "@handle" "" c7Post
    (by decide) (by decide) (by decide) (by decide)

/-! ### C8: pagination monotonicity (`visibleFeedPosts` / `loadMoreFeed`) -/

/-- Source `visibleFeedPosts = moodFilteredHomePosts.slice(0, feedVisibleCount)`. -/
def visibleFeedPosts (filteredPosts : List Post) (feedVisibleCount : Nat) : List Post :=
  filteredPosts.take feedVisibleCount

/-- The `setFeedVisibleCount` update of `loadMoreFeed`:
`min(list.length, prev + feedPageSize)` (the accompanying fetch-limit growth
does not touch the visible window). -/
def loadMoreFeedCount (totalLen feedVisibleCount : Nat) : Nat :=
  min totalLen (feedVisibleCount + feedPageSize)

/-- C8: over a fixed filtered feed list, the visible window after one
`loadMore` extends the window before it: the previous visible list is a
prefix of the new one (the new list is the old list followed by a possibly
empty tail). -/
theorem c8_pagination_monotone (l : List Post) (count : Nat) :
    ∃ t, visibleFeedPosts l (loadMoreFeedCount l.length count) =
      visibleFeedPosts l count ++ t := by
  refine ⟨(l.take (loadMoreFeedCount l.length count)).drop count, ?_⟩
  have h : visibleFeedPosts l count =
      (l.take (loadMoreFeedCount l.length count)).take count := by
    unfold visibleFeedPosts
    rcases le_or_lt count (loadMoreFeedCount l.length count) with hc | hc
    · rw [List.take_take, min_eq_left hc]
    · have hlen : loadMoreFeedCount l.length count = l.length := by
        unfold loadMoreFeedCount feedPageSize at hc ⊢
        omega
      rw [hlen, List.take_length]
  rw [h, List.take_append_drop]
  rfl

/-! ### C9: failure handling of `createPost` -/

/-- The upload-failure branch of `createPost`: the optimistic post was
prepended, then `uploadMedia` threw, and the catch removes every entry with
the temporary id from the feed. -/
def createFlowUploadFailed (posts : List Post) (opt : Post) : List Post :=
  (opt :: posts).filter (fun q => q.id ≠ opt.id)

/-- The publish-failure branch of `createPost`: the optimistic post was
prepended (media, if any, already uploaded), then `addDoc` threw, and the
catch tags the entry `delivery_status: failed` instead of removing it. -/
def createFlowPublishFailed (posts : List Post) (opt : Post) : List Post :=
  (opt :: posts).map (fun q =>
    if q.id = opt.id then { q with delivery_status := some "failed" } else q)

/-- C9 counterexample input: a pure-text optimistic post in `sending`
state. -/
def c9TextPost : Post :=
  { id := "local-post-123"
    user_id := "u1"
    created_at := .num 123
    caption := "hello"
    tags := []
    engagement_count := 0
    reactions_count := createEmptyReactionCounts
    reacted_by := []
    comments := []
    comments_count := 0
    steeze_score10 := 0
    media_type := "text"
    thumbnail_url := ""
    moderated_status := "active"
    flags_count := 0
    delivery_status := some "sending" }

/-- C9 counterexample: a pure-text post has no upload step, so its create
round-trip can only fail at publish — and the publish-failure branch keeps
the post in the feed tagged `failed` instead of removing it, contrary to
the claim that failed pure-text posts vanish (symmetrically, an upload
failure removes the media post instead of tagging it). -/
theorem c9_counterexample :
    c9TextPost.media_type = "text" ∧
      createFlowPublishFailed [] c9TextPost =
        [{ c9TextPost with delivery_status := some "failed" }] ∧
      createFlowPublishFailed [] c9TextPost ≠ [] := by
  decide

/-- C9 (amended): the asymmetry of `createPost` runs on the failure *stage*,
not the media kind: a create whose media upload fails is removed from the
feed entirely, while a create whose publish round-trip fails — pure-text,
or media whose upload already succeeded — remains in the feed tagged with
the failed delivery state. -/
theorem c9_failure_paths (posts : List Post) (opt : Post)
    (hfresh : ∀ q ∈ posts, q.id ≠ opt.id) :
    createFlowUploadFailed posts opt = posts ∧
      (createFlowPublishFailed posts opt).find? (fun q => q.id = opt.id) =
        some { opt with delivery_status := some "failed" } := by
  constructor
  · unfold createFlowUploadFailed
    rw [List.filter_cons_of_neg (by simp)]
    exact List.filter_eq_self.2 (by
      intro q hq
      simpa using hfresh q hq)
  · unfold createFlowPublishFailed
    rw [List.map_cons, if_pos rfl, List.find?_cons_of_pos _ (by simp)]

/-- C9 witness: the amended theorem at a concrete feed holding one other
post. -/
theorem c9_witness :
    createFlowUploadFailed [c7Post] c9TextPost = [c7Post] ∧
      (createFlowPublishFailed [c7Post] c9TextPost).find? (fun q => q.id = c9TextPost.id) =
        some { c9TextPost with delivery_status := some "failed" } :=
  c9_failure_paths [c7Post] c9TextPost (by decide)

/-! ### C10: moderation filter of the visible posts -/

/-- Source `visiblePosts`: non-admin viewers only see posts whose
moderation status (defaulted to active) is not hidden; admins see all. -/
def visiblePosts (isAdmin : Bool) (posts : List Post) : List Post :=
  posts.filter (fun post =>
    isAdmin ||
      decide ((if post.moderated_status = "" then "active" else post.moderated_status) ≠
        "hidden"))

/-- C10: every post the visible-posts selection returns to a non-admin
viewer has a moderation status other than hidden, and for an admin viewer
every post of the feed is included, hidden ones among them. -/
theorem c10_hidden_filter (posts : List Post) (p : Post) :
    (p ∈ visiblePosts false posts → p.moderated_status ≠ "hidden") ∧
      (p ∈ posts → p ∈ visiblePosts true posts) := by
  constructor
  · intro hp
    rw [visiblePosts, List.mem_filter] at hp
    have h2 := hp.2
    simp only [Bool.false_or, decide_eq_true_eq] at h2
    intro hmod
    rw [hmod] at h2
    simp at h2
  · intro hp
    rw [visiblePosts, List.mem_filter]
    exact ⟨hp, by simp⟩

/-- C10 witness input: a hidden post. -/
def c10Hidden : Post :=
  { c7Post with id := "p10h", moderated_status := "hidden" }

/-- C10 witness input: an active post. -/
def c10Active : Post :=
  { c7Post with id := "p10a", moderated_status := "active" }

/-- C10 witness: the filter theorem applied at a concrete two-post feed —
the active post seen by a non-admin is not hidden, and the hidden post is
included for an admin. -/
theorem c10_witness :
    c10Active.moderated_status ≠ "hidden" ∧
      c10Hidden ∈ visiblePosts true [c10Active, c10Hidden] :=
  ⟨(c10_hidden_filter [c10Active, c10Hidden] c10Active).1 (by decide),
   (c10_hidden_filter [c10Active, c10Hidden] c10Hidden).2 (by decide)⟩
